import Mathlib

/-!
Verification of the RSS reader core (`tasks/rss_reader.py`): a shallow
embedding of `parse_channel`, `parse_item`, `format_text_output` and
`rss_parser`, together with theorems settling the specification claims.

External collaborators are modelled at their interfaces:
* `xml.etree.ElementTree.fromstring` is represented by its result, an
  `Except String Element` — `.ok root` when the XML parses, `.error msg`
  when the library raises `ParseError` with diagnostic `msg`;
* `html.unescape` is modelled by `unescape` below, faithful on inputs free
  of character references and on the predefined XML entities;
* `json.dumps(data, indent=2, ensure_ascii=False)` is modelled by
  `dumpsChan`.
Python exceptions are values of `PyErr`; fallible code returns
`Except PyErr α`.
-/

/-- An `xml.etree.ElementTree.Element`: tag name, optional text content
(`None` in Python becomes `none`), and the list of direct children in
document order. -/
structure Element where
  tag : String
  text : Option String
  children : List Element

/-- Embeds `element.find(tag)`: the first direct child whose tag matches, if any. -/
def find (e : Element) (tag : String) : Option Element :=
  e.children.find? (fun c => c.tag == tag)

/-- Embeds `element.findall(tag)`: all direct children with the given tag, in
document order. -/
def findall (e : Element) (tag : String) : List Element :=
  e.children.filter (fun c => c.tag == tag)

/-- Python truthiness of `elem.text` (a `str` or `None`): true iff the text
exists and is non-empty. -/
def truthyText : Option String → Bool
  | some s => !(s == "")
  | none => false

/-- The Python exception kinds the program can raise: the XML library's
`ParseError`, built-in `ValueError`, `TypeError` and `KeyError`, and the
program's own `UnhandledException` class. -/
inductive PyErr where
  | parseError (msg : String)
  | valueError (msg : String)
  | typeError (msg : String)
  | keyError (msg : String)
  | unhandledException (msg : String)
deriving DecidableEq

/-- Python `str(e)` on an exception: its message. -/
def PyErr.message : PyErr → String
  | .parseError m => m
  | .valueError m => m
  | .typeError m => m
  | .keyError m => m
  | .unhandledException m => m

/-- A value stored in an item dict: a string field, or the `categories`
list (entries are `cat.text`, so possibly `None`). -/
inductive IVal where
  | s (v : String)
  | cats (v : List (Option String))
deriving DecidableEq

/-- An item record: a Python dict in insertion order. -/
abbrev Item := List (String × IVal)

/-- A value stored in the channel dict: a string field, the `categories`
list, or the nested list of item records. -/
inductive CVal where
  | s (v : String)
  | cats (v : List (Option String))
  | items (v : List Item)
deriving DecidableEq

/-- The channel record: a Python dict in insertion order. -/
abbrev Chan := List (String × CVal)

/-- Python `d[k] = v` on a dict (kept as an insertion-ordered association
list): update in place if the key exists, otherwise append at the end. -/
def pySet {β : Type} (d : List (String × β)) (k : String) (v : β) : List (String × β) :=
  if d.any (fun kv => kv.1 == k) then
    d.map (fun kv => if kv.1 == k then (k, v) else kv)
  else d ++ [(k, v)]

/-- Python `d.get(k)`: the stored value, or `None` when the key is absent. -/
def pyGet {β : Type} (d : List (String × β)) (k : String) : Option β :=
  (d.find? (fun kv => kv.1 == k)).map (fun kv => kv.2)

/-- Python `d[k] = v` on the channel dict. -/
def dictSetC (d : Chan) (k : String) (v : CVal) : Chan := pySet d k v

/-- Python `d[k] = v` on an item dict. -/
def dictSetI (d : Item) (k : String) (v : IVal) : Item := pySet d k v

/-- Python `d.get(k)` on the channel dict. -/
def dgetC (d : Chan) (k : String) : Option CVal := pyGet d k

/-- Python `d.get(k)` on an item dict. -/
def dgetI (d : Item) (k : String) : Option IVal := pyGet d k

/-- Python truthiness of `d.get(k)`: false for a missing key, the empty
string, or an empty list. -/
def truthyC : Option CVal → Bool
  | some (.s v) => !(v == "")
  | some (.cats v) => !v.isEmpty
  | some (.items v) => !v.isEmpty
  | none => false

/-- Python truthiness of an optional item-dict value. -/
def truthyI : Option IVal → Bool
  | some (.s v) => !(v == "")
  | some (.cats v) => !v.isEmpty
  | none => false

/-- The string stored at a key (only used under a truthiness guard that
ensures the key holds a non-empty string). -/
def getStrC (d : Chan) (k : String) : String :=
  match dgetC d k with
  | some (.s v) => v
  | _ => ""

/-- The categories list stored at a key of the channel dict. -/
def getCatsC (d : Chan) (k : String) : List (Option String) :=
  match dgetC d k with
  | some (.cats v) => v
  | _ => []

/-- The string stored at a key of an item dict. -/
def getStrI (d : Item) (k : String) : String :=
  match dgetI d k with
  | some (.s v) => v
  | _ => ""

/-- The categories list stored at a key of an item dict. -/
def getCatsI (d : Item) (k : String) : List (Option String) :=
  match dgetI d k with
  | some (.cats v) => v
  | _ => []

/-- Model of `html.unescape` on the character list: replaces the
predefined character references and leaves everything else unchanged.
Faithful to the library on inputs whose only character references are the
predefined XML entities (all strings in this development). -/
def unescapeAux : List Char → List Char
  | [] => []
  | '&' :: 'a' :: 'm' :: 'p' :: ';' :: rest => '&' :: unescapeAux rest
  | '&' :: 'l' :: 't' :: ';' :: rest => '<' :: unescapeAux rest
  | '&' :: 'g' :: 't' :: ';' :: rest => '>' :: unescapeAux rest
  | '&' :: 'q' :: 'u' :: 'o' :: 't' :: ';' :: rest => '"' :: unescapeAux rest
  | '&' :: '#' :: '3' :: '9' :: ';' :: rest => Char.ofNat 39 :: unescapeAux rest
  | c :: rest => c :: unescapeAux rest

/-- Model of `html.unescape`. -/
def unescape (s : String) : String :=
  String.mk (unescapeAux s.data)

/-- Index-tracking worker for `joinPy`: Python `str.join` raises
`TypeError` at the first non-string entry, naming its position. -/
def joinCheck : Nat → List (Option String) → Except PyErr (List String)
  | _, [] => .ok []
  | i, none :: _ =>
      .error (.typeError ("sequence item " ++ toString i ++
        ": expected str instance, NoneType found"))
  | i, some s :: rest => (joinCheck (i + 1) rest).map (fun l => s :: l)

/-- Python `sep.join(xs)` over a list that may contain `None`: a
`TypeError` at the first `None`, otherwise the separated concatenation. -/
def joinPy (sep : String) (xs : List (Option String)) : Except PyErr String :=
  (joinCheck 0 xs).map (fun l => String.intercalate sep l)

/-- Four lowercase hex digits, as `json.dumps` writes control characters. -/
def hex4 (n : Nat) : String :=
  let digit := fun (d : Nat) =>
    if d < 10 then Char.ofNat (48 + d) else Char.ofNat (87 + d)
  String.mk [digit (n / 4096 % 16), digit (n / 256 % 16),
             digit (n / 16 % 16), digit (n % 16)]

/-- JSON escaping of one character under `ensure_ascii=False`. -/
def jsonEscapeChar (c : Char) : String :=
  if c = '"' then "\\\""
  else if c = '\\' then "\\\\"
  else if c = '\n' then "\\n"
  else if c = '\t' then "\\t"
  else if c = '\r' then "\\r"
  else if c = Char.ofNat 8 then "\\b"
  else if c = Char.ofNat 12 then "\\f"
  else if c.toNat < 32 then "\\u" ++ hex4 c.toNat
  else String.singleton c

/-- A JSON string literal as `json.dumps` writes it. -/
def jsonStr (s : String) : String :=
  "\"" ++ String.join (s.data.map jsonEscapeChar) ++ "\""

/-- Returns `n` spaces of indentation. -/
def ind (n : Nat) : String :=
  String.mk (List.replicate n ' ')

/-- A categories list as `json.dumps(-, indent=2)` renders it at
indentation level `lvl`; `None` entries become `null`. -/
def dumpsCats (xs : List (Option String)) (lvl : Nat) : String :=
  match xs with
  | [] => "[]"
  | _ =>
    "[\n" ++
    String.intercalate ",\n"
      (xs.map (fun x =>
        ind (lvl + 2) ++ (match x with | none => "null" | some s => jsonStr s))) ++
    "\n" ++ ind lvl ++ "]"

/-- One item dict rendered at indentation level `lvl`. -/
def dumpsItem (it : Item) (lvl : Nat) : String :=
  match it with
  | [] => "\x7b\x7d"
  | _ =>
    "\x7b\n" ++
    String.intercalate ",\n"
      (it.map (fun kv =>
        ind (lvl + 2) ++ jsonStr kv.1 ++ ": " ++
        (match kv.2 with
         | .s v => jsonStr v
         | .cats v => dumpsCats v (lvl + 2)))) ++
    "\n" ++ ind lvl ++ "\x7d"

/-- The items list rendered at indentation level `lvl`. -/
def dumpsItems (xs : List Item) (lvl : Nat) : String :=
  match xs with
  | [] => "[]"
  | _ =>
    "[\n" ++
    String.intercalate ",\n"
      (xs.map (fun it => ind (lvl + 2) ++ dumpsItem it (lvl + 2))) ++
    "\n" ++ ind lvl ++ "]"

/-- Model of `json.dumps(data, indent=2, ensure_ascii=False)` on the
channel record: keys in dict (insertion) order, two-space indentation. -/
def dumpsChan (d : Chan) : String :=
  match d with
  | [] => "\x7b\x7d"
  | _ =>
    "\x7b\n" ++
    String.intercalate ",\n"
      (d.map (fun kv =>
        ind 2 ++ jsonStr kv.1 ++ ": " ++
        (match kv.2 with
         | .s v => jsonStr v
         | .cats v => dumpsCats v 2
         | .items v => dumpsItems v 2))) ++
    "\n\x7d"

/-- One pass of the required-field loop of `parse_channel`
(`rss_reader.py` lines 20-23): store the element text iff the child
exists and its text is truthy. -/
def setTextField (r : Chan) (ch : Element) (f : String) : Chan :=
  match find ch f with
  | some e =>
    match e.text with
    | some s => if s = "" then r else dictSetC r f (.s s)
    | none => r
  | none => r

/-- One pass of the text-mode optional-field loop of `parse_channel`
(lines 34-39): the element text when present and truthy, the empty string
otherwise. -/
def setOptionalTextField (r : Chan) (ch : Element) (f : String) : Chan :=
  match find ch f with
  | some e =>
    match e.text with
    | some s => if s = "" then dictSetC r f (.s "") else dictSetC r f (.s s)
    | none => dictSetC r f (.s "")
  | none => dictSetC r f (.s "")

/-- Embeds `parse_channel(channel, json_output)` (`rss_reader.py` lines 15-65):
required fields, then the mode-dependent optional fields and categories,
then an empty `items` slot. -/
def parse_channel (channel : Element) (json_output : Bool) : Chan :=
  let result : Chan := []
  let result := setTextField result channel "title"
  let result := setTextField result channel "link"
  let result := setTextField result channel "description"
  let result :=
    if !json_output then
      let result := setOptionalTextField result channel "lastBuildDate"
      let result := setOptionalTextField result channel "pubDate"
      let result := setOptionalTextField result channel "language"
      let result := setOptionalTextField result channel "managingEditor"
      let categories := findall channel "category"
      dictSetC result "categories"
        (.cats (if !categories.isEmpty then categories.map (fun c => c.text) else []))
    else
      let result := setTextField result channel "lastBuildDate"
      let result := setTextField result channel "pubDate"
      let result := setTextField result channel "language"
      let result := setTextField result channel "managingEditor"
      let categories := findall channel "category"
      if !categories.isEmpty then
        dictSetC result "categories" (.cats (categories.map (fun c => c.text)))
      else result
  dictSetC result "items" (.items [])

/-- One pass of the field loop of `parse_item` (lines 81-86): the element
text when present and truthy; in text mode an absent or empty field is
stored as the empty string. -/
def setItemField (r : Item) (item : Element) (f : String) (json_output : Bool) : Item :=
  match find item f with
  | some e =>
    match e.text with
    | some s =>
      if s = "" then (if !json_output then dictSetI r f (.s "") else r)
      else dictSetI r f (.s s)
    | none => if !json_output then dictSetI r f (.s "") else r
  | none => if !json_output then dictSetI r f (.s "") else r

/-- Embeds `parse_item(item, json_output)` (`rss_reader.py` lines 68-93). -/
def parse_item (item : Element) (json_output : Bool) : Item :=
  let result : Item := []
  let result := setItemField result item "title" json_output
  let result := setItemField result item "author" json_output
  let result := setItemField result item "pubDate" json_output
  let result := setItemField result item "link" json_output
  let result := setItemField result item "description" json_output
  let categories := findall item "category"
  if !categories.isEmpty || !json_output then
    dictSetI result "categories" (.cats (categories.map (fun c => c.text)))
  else result

/-- The item block of `format_text_output` (lines 122-139), parameterized
by the unescaping function `u` so that the unescaping scope can be stated:
guarded `Title`/`Author`/`Published`/`Link`/`Categories` lines, then a
blank line and the bare description when present, then the unconditional
trailing blank line. -/
def format_itemU (u : String → String) (item : Item) : Except PyErr (List String) :=
  let head :=
    (if truthyI (dgetI item "title") then ["Title: " ++ u (getStrI item "title")] else [])
    ++ (if truthyI (dgetI item "author") then ["Author: " ++ getStrI item "author"] else [])
    ++ (if truthyI (dgetI item "pubDate") then ["Published: " ++ getStrI item "pubDate"] else [])
    ++ (if truthyI (dgetI item "link") then ["Link: " ++ getStrI item "link"] else [])
  let catLinesE :=
    if truthyI (dgetI item "categories") then
      (joinPy ", " (getCatsI item "categories")).map (fun j => ["Categories: " ++ j])
    else .ok []
  let descLines :=
    if truthyI (dgetI item "description") then ["", u (getStrI item "description")] else []
  catLinesE.map (fun catLines => head ++ catLines ++ descLines ++ [""])

/-- The channel block of `format_text_output` (lines 100-119),
parameterized by the unescaping function: the guarded header lines in the
source's order, including the blank separator emitted when items follow. -/
def channel_linesU (u : String → String) (data : Chan) : Except PyErr (List String) :=
  let head :=
    (if truthyC (dgetC data "title") then ["Feed: " ++ u (getStrC data "title")] else [])
    ++ (if truthyC (dgetC data "link") then ["Link: " ++ getStrC data "link"] else [])
    ++ (if truthyC (dgetC data "lastBuildDate") then
          ["Last Build Date: " ++ getStrC data "lastBuildDate"] else [])
    ++ (if truthyC (dgetC data "pubDate") then
          ["Publish Date: " ++ getStrC data "pubDate"] else [])
    ++ (if truthyC (dgetC data "language") then
          ["Language: " ++ getStrC data "language"] else [])
  let catLinesE :=
    if truthyC (dgetC data "categories") then
      (joinPy ", " (getCatsC data "categories")).map (fun j => ["Categories: " ++ j])
    else .ok []
  let tail :=
    (if truthyC (dgetC data "managingEditor") then
       ["Editor: " ++ getStrC data "managingEditor"] else [])
    ++ (if truthyC (dgetC data "description") then
          ["Description: " ++ u (getStrC data "description")] else [])
    ++ (if truthyC (dgetC data "items") then [""] else [])
  catLinesE.map (fun catLines => head ++ catLines ++ tail)

/-- Embeds `format_text_output(data)` (lines 96-141) parameterized by the
unescaping function: the channel block, then each item's block in order.
Iterating `data['items']` raises `KeyError` when the key is absent; the
key always holds an item list in this program. -/
def format_text_outputU (u : String → String) (data : Chan) : Except PyErr (List String) :=
  (channel_linesU u data).bind (fun chanLines =>
    (match dgetC data "items" with
     | some (.items xs) => Except.ok xs
     | some _ => Except.ok []
     | none => Except.error (.keyError "'items'") :
      Except PyErr (List Item)).bind (fun itemDicts =>
      (itemDicts.mapM (format_itemU u)).map (fun itemBlocks =>
        chanLines ++ itemBlocks.flatten)))

/-- Specializes `format_text_output` to the real `html.unescape` model. -/
def format_text_output (data : Chan) : Except PyErr (List String) :=
  format_text_outputU unescape data

/-- Python `l[:k]` for an integer bound `k`: the first `k` elements when
`k ≥ 0`, all but the last `-k` elements when `k < 0`; never an error. -/
def pySliceTo {α : Type} (xs : List α) (k : Int) : List α :=
  if 0 ≤ k then xs.take k.toNat
  else xs.take (xs.length - (-k).toNat)

/-- Lines 181-182 of `rss_parser`: `items[:limit]` when a limit is given,
all items otherwise. -/
def applyLimit (items : List Element) : Option Int → List Element
  | none => items
  | some l => pySliceTo items l

/-- Lines 177 and 185 of `rss_parser`: the channel record with the parsed
items stored under `items`. Both `parse_channel` and `parse_item` are
called without forwarding the `json` flag, exactly as the source does. -/
def build_data (channel : Element) (items : List Element) : Chan :=
  dictSetC (parse_channel channel false) "items"
    (.items (items.map (fun it => parse_item it false)))

/-- The body of the `try` block of `rss_parser` (lines 170-192). -/
def rssParserBody (parsed : Except String Element) (limit : Option Int)
    (json : Bool) : Except PyErr (List String) :=
  match parsed with
  | .error m => .error (.parseError m)
  | .ok root =>
    match find root "channel" with
    | none => .error (.valueError "Invalid RSS feed: no channel element found")
    | some channel =>
      let data := build_data channel (applyLimit (findall channel "item") limit)
      if json then
        .ok [dumpsChan data]
      else
        format_text_output data

/-- Embeds `rss_parser(xml, limit, json)` (lines 144-197). The argument `parsed`
is the result of `ET.fromstring(xml)`. The two `except` clauses: a
`ParseError` becomes `ValueError("Invalid XML document: ...")`; any other
exception raised in the `try` body (including the missing-channel
`ValueError`, which is not a `ParseError`) is wrapped into
`UnhandledException("Unexpected error: ...")`. -/
def rssParser (parsed : Except String Element) (limit : Option Int)
    (json : Bool) : Except PyErr (List String) :=
  match rssParserBody parsed limit json with
  | .ok v => .ok v
  | .error (.parseError m) => .error (.valueError ("Invalid XML document: " ++ m))
  | .error e => .error (.unhandledException ("Unexpected error: " ++ e.message))

/-- The ET parse of the docstring example
`<rss><channel><title>Some RSS Channel</title><link>https://some.rss.com</link><description>Some RSS Channel</description></channel></rss>`. -/
def minimalFeed : Element :=
  ⟨"rss", none,
    [⟨"channel", none,
      [⟨"title", some "Some RSS Channel", []⟩,
       ⟨"link", some "https://some.rss.com", []⟩,
       ⟨"description", some "Some RSS Channel", []⟩]⟩]⟩

/-- The channel element of `minimalFeed`. -/
def minimalChannel : Element :=
  ⟨"channel", none,
    [⟨"title", some "Some RSS Channel", []⟩,
     ⟨"link", some "https://some.rss.com", []⟩,
     ⟨"description", some "Some RSS Channel", []⟩]⟩

/-- The ET parse of `<invalid>xml</invalid>`. -/
def invalidFeed : Element := ⟨"invalid", some "xml", []⟩

/-- C1: the spec's JSON key-omission law fails on the code: `rss_parser`
calls `parse_channel(channel)` and `parse_item(item)` without forwarding
`json`, so with `json=true` on a feed with no optional channel fields the
serialized record still carries `lastBuildDate`, `pubDate`, `language` and
`managingEditor` with empty-string values and an empty `categories` list.
The intended omission behaviour exists but is dead code: calling
`parse_channel` with `json_output=true` directly does omit the keys. -/
theorem json_mode_emits_empty_optional_keys :
    rssParser (.ok minimalFeed) none true =
      .ok ["\x7b\n  \"title\": \"Some RSS Channel\",\n  \"link\": \"https://some.rss.com\",\n  \"description\": \"Some RSS Channel\",\n  \"lastBuildDate\": \"\",\n  \"pubDate\": \"\",\n  \"language\": \"\",\n  \"managingEditor\": \"\",\n  \"categories\": [],\n  \"items\": []\n\x7d"]
    ∧ dgetC (parse_channel minimalChannel true) "lastBuildDate" = none
    ∧ dgetC (parse_channel minimalChannel false) "lastBuildDate" = some (.s "") := by
  refine ⟨?_, ?_, ?_⟩ <;> rfl

/-- C2: on the parse of `<invalid>xml</invalid>` (well-formed, no
`channel` child) the missing-channel `ValueError` is raised inside the
`try` block and caught by the trailing `except Exception` clause, so
`rss_parser` raises `UnhandledException`, not the `ValueError` that the
spec (and the repository's own `test_invalid_xml`) expects. -/
theorem missing_channel_wrapped_as_unhandled :
    rssParser (.ok invalidFeed) none false =
      .error (.unhandledException
        "Unexpected error: Invalid RSS feed: no channel element found") := by
  rfl

/-- C3, counterexample: on the docstring feed the text-mode output is not
`["Feed: Some RSS Channel", "Link: https://some.rss.com", ""]`. -/
theorem minimal_feed_output_not_claimed_triple :
    rssParser (.ok minimalFeed) none false ≠
      .ok ["Feed: Some RSS Channel", "Link: https://some.rss.com", ""] := by
  intro h
  rw [show rssParser (Except.ok minimalFeed) none false =
        Except.ok ["Feed: Some RSS Channel", "Link: https://some.rss.com",
          "Description: Some RSS Channel"] from rfl] at h
  exact absurd (Except.ok.inj h) (by decide)

/-- C3, amended: the actual text-mode output on the docstring feed: the
non-empty description produces a `Description:` line, and the blank
separator line is not emitted because there are zero items
(`if data.get('items')` is false on an empty list). -/
theorem minimal_feed_output_exact :
    rssParser (.ok minimalFeed) none false =
      .ok ["Feed: Some RSS Channel", "Link: https://some.rss.com",
           "Description: Some RSS Channel"] := by
  rfl

/-- C6: for every malformed-XML diagnostic, `rss_parser` turns the
library's `ParseError` into a `ValueError` carrying `Invalid XML
document:` plus the underlying message, whatever the limit and mode; the
re-raise inside `except ET.ParseError` is not re-caught by the following
`except Exception` clause. -/
theorem malformed_xml_value_error (msg : String) (limit : Option Int) (json : Bool) :
    rssParser (.error msg) limit json =
      .error (.valueError ("Invalid XML document: " ++ msg)) := by
  rfl

/-- A feed whose single item carries an empty `<category/>` element: the
ET parse of
`<rss><channel><title>T</title><link>L</link><description>D</description><item><title>I</title><category/></item></channel></rss>`. -/
def emptyCategoryFeed : Element :=
  ⟨"rss", none,
    [⟨"channel", none,
      [⟨"title", some "T", []⟩,
       ⟨"link", some "L", []⟩,
       ⟨"description", some "D", []⟩,
       ⟨"item", none,
         [⟨"title", some "I", []⟩,
          ⟨"category", none, []⟩]⟩]⟩]⟩

/-- C9: an empty `category` element makes `parse_item` store `None` in the
categories list; the list is non-empty, so `format_text_output` calls
`', '.join` on it, the join raises `TypeError`, and the catch-all turns it
into `UnhandledException`. -/
theorem empty_category_raises_unhandled :
    rssParser (.ok emptyCategoryFeed) none false =
      .error (.unhandledException
        "Unexpected error: sequence item 0: expected str instance, NoneType found") := by
  rfl

/-- A channel with six items, the ET parse of a feed
`<rss><channel><title>T</title>...<item><title>i1</title></item>...(six items)...</channel></rss>`. -/
def sixItemChannel : Element :=
  ⟨"channel", none,
    [⟨"title", some "T", []⟩,
     ⟨"link", some "L", []⟩,
     ⟨"description", some "D", []⟩,
     ⟨"item", none, [⟨"title", some "i1", []⟩]⟩,
     ⟨"item", none, [⟨"title", some "i2", []⟩]⟩,
     ⟨"item", none, [⟨"title", some "i3", []⟩]⟩,
     ⟨"item", none, [⟨"title", some "i4", []⟩]⟩,
     ⟨"item", none, [⟨"title", some "i5", []⟩]⟩,
     ⟨"item", none, [⟨"title", some "i6", []⟩]⟩]⟩

/-- C5, counterexample: with `limit = -1` on a six-item channel,
`rss_parser`'s limit step (`items[:limit]`) keeps five of the six items —
all but the last — which is nearly the full list, not an empty or very
short slice. -/
theorem negative_limit_keeps_nearly_all :
    (applyLimit (findall sixItemChannel "item") (some (-1))).length = 5
    ∧ (findall sixItemChannel "item").length = 6
    ∧ applyLimit (findall sixItemChannel "item") (some (-1)) =
        (findall sixItemChannel "item").take 5 := by
  refine ⟨?_, ?_, ?_⟩ <;> rfl

/-- C5, amended: `items[:limit]` follows Python slice semantics: a zero
limit keeps nothing, and a negative limit `k` keeps all but the last `-k`
items (so it can keep nearly all items of a long feed). -/
theorem negative_limit_slice_semantics (xs : List Element) (k : Int) (hk : k < 0) :
    applyLimit xs (some k) = xs.take (xs.length - (-k).toNat)
    ∧ applyLimit xs (some 0) = [] := by
  constructor
  · simp [applyLimit, pySliceTo, not_le.2 hk]
  · simp [applyLimit, pySliceTo]

/-- Witness for `negative_limit_slice_semantics` at a two-element list and
`k = -1`. -/
theorem negative_limit_slice_semantics_witness :
    applyLimit [(⟨"item", none, []⟩ : Element), ⟨"item", none, []⟩] (some (-1)) =
      [(⟨"item", none, []⟩ : Element), ⟨"item", none, []⟩].take
        ([(⟨"item", none, []⟩ : Element), ⟨"item", none, []⟩].length - (-(-1 : Int)).toNat)
    ∧ applyLimit [(⟨"item", none, []⟩ : Element), ⟨"item", none, []⟩] (some 0) = [] :=
  negative_limit_slice_semantics
    [⟨"item", none, []⟩, ⟨"item", none, []⟩] (-1) (by decide)

/-- After overwriting key `k`, looking `k` up in the rewritten list finds
the new value (the in-place branch of `pySet`). -/
theorem find?_setkey_self {β : Type} (d : List (String × β)) (k : String) (v : β)
    (h : d.any (fun kv => kv.1 == k) = true) :
    (d.map (fun kv => if kv.1 == k then (k, v) else kv)).find?
        (fun kv => kv.1 == k) = some (k, v) := by
  induction d with
  | nil => simp at h
  | cons hd tl ih =>
    simp only [List.any_cons, Bool.or_eq_true] at h
    by_cases hk : hd.1 = k
    · simp [hk]
    · have hb : (hd.1 == k) = false := beq_eq_false_iff_ne.mpr hk
      have h' : (tl.any fun kv => kv.1 == k) = true := by
        rcases h with h | h
        · rw [hb] at h; cases h
        · exact h
      simp only [List.map_cons, hb, Bool.false_eq_true, if_false]
      rw [List.find?_cons_of_neg _ (by simp [hb])]
      exact ih h'

/-- Overwriting key `k` does not change lookups of a different key. -/
theorem find?_setkey_ne {β : Type} (d : List (String × β)) (k k' : String) (v : β)
    (h : ¬ k = k') :
    (d.map (fun kv => if kv.1 == k then (k, v) else kv)).find?
        (fun kv => kv.1 == k') = d.find? (fun kv => kv.1 == k') := by
  induction d with
  | nil => rfl
  | cons hd tl ih =>
    by_cases hk : hd.1 = k
    · have hb : (hd.1 == k) = true := beq_iff_eq.mpr hk
      have hb' : (hd.1 == k') = false := beq_eq_false_iff_ne.mpr (by rw [hk]; exact h)
      simp only [List.map_cons, hb, if_true]
      rw [List.find?_cons_of_neg _ (by simp [beq_eq_false_iff_ne.mpr h]),
          List.find?_cons_of_neg _ (by simp [hb']), ih]
    · have hb : (hd.1 == k) = false := beq_eq_false_iff_ne.mpr hk
      simp only [List.map_cons, hb, if_false]
      by_cases hk' : hd.1 = k'
      · rw [List.find?_cons_of_pos _ (by simp [hk']),
            List.find?_cons_of_pos _ (by simp [hk'])]
        simp [hb]
      · rw [List.find?_cons_of_neg _ (by simp [beq_eq_false_iff_ne.mpr hk']),
            List.find?_cons_of_neg _ (by simp [beq_eq_false_iff_ne.mpr hk']), ih]

/-- Python `d[k] = v` followed by `d.get(k)` yields the new value. -/
theorem pyGet_pySet_self {β : Type} (d : List (String × β)) (k : String) (v : β) :
    pyGet (pySet d k v) k = some v := by
  unfold pySet
  split
  · rename_i h
    unfold pyGet
    rw [find?_setkey_self d k v h]
    rfl
  · rename_i h
    unfold pyGet
    rw [List.find?_append]
    have hnone : d.find? (fun kv => kv.1 == k) = none := by
      rw [List.find?_eq_none]
      intro x hx
      intro hpx
      exact h (List.any_eq_true.mpr ⟨x, hx, hpx⟩)
    simp [hnone]

/-- Python `d[k] = v` does not change `d.get(k')` for `k' ≠ k`. -/
theorem pyGet_pySet_ne {β : Type} (d : List (String × β)) (k k' : String) (v : β)
    (h : ¬ k = k') :
    pyGet (pySet d k v) k' = pyGet d k' := by
  unfold pySet
  split
  · unfold pyGet
    rw [find?_setkey_ne d k k' v h]
  · unfold pyGet
    rw [List.find?_append]
    have : ([(k, v)].find? (fun kv => kv.1 == k')) = none := by
      simp [beq_eq_false_iff_ne.mpr h]
    simp [this]

/-- The setter `setTextField` only touches key `f`. -/
theorem dgetC_setTextField_ne (r : Chan) (ch : Element) (f k : String)
    (h : ¬ f = k) : dgetC (setTextField r ch f) k = dgetC r k := by
  unfold setTextField
  cases hfind : find ch f with
  | none => rfl
  | some e =>
    obtain ⟨tg, txt, cs⟩ := e
    cases txt with
    | none => rfl
    | some s =>
      by_cases hs : s = ""
      · simp [hs]
      · simp only [hs, if_false]
        exact pyGet_pySet_ne r f k _ h

/-- The value `setTextField` leaves at its own key. -/
theorem dgetC_setTextField_self (r : Chan) (ch : Element) (f : String) :
    dgetC (setTextField r ch f) f =
      match find ch f with
      | some e =>
        match e.text with
        | some s => if s = "" then dgetC r f else some (.s s)
        | none => dgetC r f
      | none => dgetC r f := by
  unfold setTextField
  cases hfind : find ch f with
  | none => rfl
  | some e =>
    obtain ⟨tg, txt, cs⟩ := e
    cases txt with
    | none => rfl
    | some s =>
      by_cases hs : s = ""
      · simp [hs]
      · simp only [hs, if_false]
        exact pyGet_pySet_self r f _

/-- The setter `setOptionalTextField` only touches key `f`. -/
theorem dgetC_setOptionalTextField_ne (r : Chan) (ch : Element) (f k : String)
    (h : ¬ f = k) : dgetC (setOptionalTextField r ch f) k = dgetC r k := by
  unfold setOptionalTextField
  cases hfind : find ch f with
  | none => exact pyGet_pySet_ne r f k _ h
  | some e =>
    obtain ⟨tg, txt, cs⟩ := e
    cases txt with
    | none => exact pyGet_pySet_ne r f k _ h
    | some s =>
      by_cases hs : s = ""
      · simp only [hs, if_true]
        exact pyGet_pySet_ne r f k _ h
      · simp only [hs, if_false]
        exact pyGet_pySet_ne r f k _ h

/-- The value `setOptionalTextField` stores at its own key. -/
theorem dgetC_setOptionalTextField_self (r : Chan) (ch : Element) (f : String) :
    dgetC (setOptionalTextField r ch f) f =
      match find ch f with
      | some e =>
        match e.text with
        | some s => if s = "" then some (.s "") else some (.s s)
        | none => some (.s "")
      | none => some (.s "") := by
  unfold setOptionalTextField
  cases hfind : find ch f with
  | none => exact pyGet_pySet_self r f _
  | some e =>
    obtain ⟨tg, txt, cs⟩ := e
    cases txt with
    | none => exact pyGet_pySet_self r f _
    | some s =>
      by_cases hs : s = ""
      · simp only [hs, if_true]
        exact pyGet_pySet_self r f _
      · simp only [hs, if_false]
        exact pyGet_pySet_self r f _

/-- The setter `setItemField` only touches key `f`. -/
theorem dgetI_setItemField_ne (r : Item) (it : Element) (f k : String) (jo : Bool)
    (h : ¬ f = k) : dgetI (setItemField r it f jo) k = dgetI r k := by
  unfold setItemField
  cases hfind : find it f with
  | none =>
    cases jo
    · exact pyGet_pySet_ne r f k _ h
    · rfl
  | some e =>
    obtain ⟨tg, txt, cs⟩ := e
    cases txt with
    | none =>
      cases jo
      · exact pyGet_pySet_ne r f k _ h
      · rfl
    | some s =>
      by_cases hs : s = ""
      · simp only [hs, if_true]
        cases jo
        · exact pyGet_pySet_ne r f k _ h
        · rfl
      · simp only [hs, if_false]
        exact pyGet_pySet_ne r f k _ h

/-- Lookup with `dgetC` after `dictSetC` at the same key. -/
theorem dgetC_dictSetC_self (d : Chan) (k : String) (v : CVal) :
    dgetC (dictSetC d k v) k = some v :=
  pyGet_pySet_self d k v

/-- Lookup with `dgetC` after `dictSetC` at a different key. -/
theorem dgetC_dictSetC_ne (d : Chan) (k k' : String) (v : CVal) (h : ¬ k = k') :
    dgetC (dictSetC d k v) k' = dgetC d k' :=
  pyGet_pySet_ne d k k' v h

/-- Lookup with `dgetI` after `dictSetI` at the same key. -/
theorem dgetI_dictSetI_self (d : Item) (k : String) (v : IVal) :
    dgetI (dictSetI d k v) k = some v :=
  pyGet_pySet_self d k v

/-- Lookup with `dgetI` after `dictSetI` at a different key. -/
theorem dgetI_dictSetI_ne (d : Item) (k k' : String) (v : IVal) (h : ¬ k = k') :
    dgetI (dictSetI d k v) k' = dgetI d k' :=
  pyGet_pySet_ne d k k' v h

/-- What the required-field loop leaves at key `f`: the element text when
the child exists with truthy text, nothing otherwise. -/
def textFieldVal (ch : Element) (f : String) : Option CVal :=
  match find ch f with
  | some e =>
    match e.text with
    | some s => if s = "" then none else some (.s s)
    | none => none
  | none => none

/-- The `title` entry of a text-mode channel record. -/
theorem dgetC_parse_channel_text_title (ch : Element) :
    dgetC (parse_channel ch false) "title" = textFieldVal ch "title" := by
  unfold parse_channel
  simp only [Bool.not_false, if_true]
  rw [dgetC_dictSetC_ne _ _ _ _ (by decide),
      dgetC_dictSetC_ne _ _ _ _ (by decide),
      dgetC_setOptionalTextField_ne _ _ _ _ (by decide),
      dgetC_setOptionalTextField_ne _ _ _ _ (by decide),
      dgetC_setOptionalTextField_ne _ _ _ _ (by decide),
      dgetC_setOptionalTextField_ne _ _ _ _ (by decide),
      dgetC_setTextField_ne _ _ _ _ (by decide),
      dgetC_setTextField_ne _ _ _ _ (by decide),
      dgetC_setTextField_self]
  rfl

/-- The `link` entry of a text-mode channel record. -/
theorem dgetC_parse_channel_text_link (ch : Element) :
    dgetC (parse_channel ch false) "link" = textFieldVal ch "link" := by
  unfold parse_channel
  simp only [Bool.not_false, if_true]
  rw [dgetC_dictSetC_ne _ _ _ _ (by decide),
      dgetC_dictSetC_ne _ _ _ _ (by decide),
      dgetC_setOptionalTextField_ne _ _ _ _ (by decide),
      dgetC_setOptionalTextField_ne _ _ _ _ (by decide),
      dgetC_setOptionalTextField_ne _ _ _ _ (by decide),
      dgetC_setOptionalTextField_ne _ _ _ _ (by decide),
      dgetC_setTextField_ne _ _ _ _ (by decide),
      dgetC_setTextField_self,
      dgetC_setTextField_ne _ _ _ _ (by decide)]
  rfl

/-- The `description` entry of a text-mode channel record. -/
theorem dgetC_parse_channel_text_description (ch : Element) :
    dgetC (parse_channel ch false) "description" = textFieldVal ch "description" := by
  unfold parse_channel
  simp only [Bool.not_false, if_true]
  rw [dgetC_dictSetC_ne _ _ _ _ (by decide),
      dgetC_dictSetC_ne _ _ _ _ (by decide),
      dgetC_setOptionalTextField_ne _ _ _ _ (by decide),
      dgetC_setOptionalTextField_ne _ _ _ _ (by decide),
      dgetC_setOptionalTextField_ne _ _ _ _ (by decide),
      dgetC_setOptionalTextField_ne _ _ _ _ (by decide),
      dgetC_setTextField_self,
      dgetC_setTextField_ne _ _ _ _ (by decide),
      dgetC_setTextField_ne _ _ _ _ (by decide)]
  rfl

/-- The `categories` entry of a text-mode channel record. -/
theorem dgetC_parse_channel_text_categories (ch : Element) :
    dgetC (parse_channel ch false) "categories" =
      some (.cats (if !(findall ch "category").isEmpty then
        (findall ch "category").map (fun c => c.text) else [])) := by
  unfold parse_channel
  simp only [Bool.not_false, if_true]
  rw [dgetC_dictSetC_ne _ _ _ _ (by decide), dgetC_dictSetC_self]

/-- The `items` entry of the record `rss_parser` passes to the formatter. -/
theorem dgetC_build_data_items (ch : Element) (its : List Element) :
    dgetC (build_data ch its) "items" =
      some (.items (its.map (fun it => parse_item it false))) := by
  unfold build_data
  rw [dgetC_dictSetC_self]

/-- Keys other than `items` of the formatter record come straight from
`parse_channel`. -/
theorem dgetC_build_data_ne (ch : Element) (its : List Element) (k : String)
    (h : ¬ "items" = k) :
    dgetC (build_data ch its) k = dgetC (parse_channel ch false) k := by
  unfold build_data
  rw [dgetC_dictSetC_ne _ _ _ _ h]

/-- The `categories` entry of a text-mode item record: always present,
holding the raw `cat.text` values (possibly `None`). -/
theorem dgetI_parse_item_false_categories (it : Element) :
    dgetI (parse_item it false) "categories" =
      some (.cats ((findall it "category").map (fun c => c.text))) := by
  unfold parse_item
  simp only [Bool.not_false, Bool.or_true, if_true]
  rw [dgetI_dictSetI_self]

/-- The worker `joinCheck` succeeds on a list of present strings. -/
theorem joinCheck_ok_of_isSome (i : Nat) (xs : List (Option String))
    (h : ∀ x ∈ xs, x.isSome) : ∃ l, joinCheck i xs = .ok l := by
  induction xs generalizing i with
  | nil => exact ⟨[], rfl⟩
  | cons x rest ih =>
    cases x with
    | none => exact absurd (h none (by simp)) (by simp)
    | some s =>
      obtain ⟨l, hl⟩ := ih (i + 1) (fun y hy => h y (by simp [hy]))
      refine ⟨s :: l, ?_⟩
      simp only [joinCheck]
      rw [hl]
      rfl

/-- Python join succeeds when every entry is a string. -/
theorem joinPy_ok_of_isSome (sep : String) (xs : List (Option String))
    (h : ∀ x ∈ xs, x.isSome) : ∃ s, joinPy sep xs = .ok s := by
  obtain ⟨l, hl⟩ := joinCheck_ok_of_isSome 0 xs h
  refine ⟨String.intercalate sep l, ?_⟩
  unfold joinPy
  rw [hl]
  rfl

/-- A `mapM` over `Except` succeeds when every element succeeds. -/
theorem mapM_ok_of_ok {α β : Type} (f : α → Except PyErr β) (l : List α)
    (h : ∀ x ∈ l, ∃ y, f x = .ok y) : ∃ out, l.mapM f = .ok out := by
  induction l with
  | nil => exact ⟨[], rfl⟩
  | cons x rest ih =>
    obtain ⟨y, hy⟩ := h x (by simp)
    obtain ⟨out, hout⟩ := ih (fun z hz => h z (by simp [hz]))
    refine ⟨y :: out, ?_⟩
    rw [List.mapM_cons, hy, hout]
    rfl

/-- Slicing `items[:N]` for a natural bound is `List.take`. -/
theorem applyLimit_natCast (items : List Element) (N : Nat) :
    applyLimit items (some (N : Int)) = items.take N := by
  unfold applyLimit pySliceTo
  simp

/-- C4: with a non-negative limit `N`, `rss_parser` keeps exactly
`min N (total item count)` items — the first `N` in document order — and
a limit exceeding the item count behaves exactly like no limit at all, so
it never causes an error by itself. -/
theorem limit_truncation (root ch : Element) (N : Nat)
    (h : find root "channel" = some ch) :
    applyLimit (findall ch "item") (some (N : Int)) = (findall ch "item").take N
    ∧ (applyLimit (findall ch "item") (some (N : Int))).length =
        min N (findall ch "item").length
    ∧ rssParser (.ok root) (some (N : Int)) true =
        .ok [dumpsChan (build_data ch ((findall ch "item").take N))]
    ∧ ((findall ch "item").length ≤ N →
        ∀ json : Bool, rssParser (.ok root) (some (N : Int)) json =
          rssParser (.ok root) none json) := by
  refine ⟨applyLimit_natCast _ _, ?_, ?_, ?_⟩
  · rw [applyLimit_natCast]
    exact List.length_take N (findall ch "item")
  · simp only [rssParser, rssParserBody, h, applyLimit_natCast, if_true]
  · intro hlen json
    have heq : applyLimit (findall ch "item") (some (N : Int)) =
        applyLimit (findall ch "item") none := by
      rw [applyLimit_natCast]
      unfold applyLimit
      exact List.take_of_length_le hlen
    simp only [rssParser, rssParserBody, h, heq]

/-- Witness for `limit_truncation`: the six-item channel under its root,
with `N = 7` exceeding the item count. -/
theorem limit_truncation_witness :
    applyLimit (findall sixItemChannel "item") (some ((7 : Nat) : Int)) =
      (findall sixItemChannel "item").take 7
    ∧ (applyLimit (findall sixItemChannel "item") (some ((7 : Nat) : Int))).length =
        min 7 (findall sixItemChannel "item").length
    ∧ rssParser (.ok ⟨"rss", none, [sixItemChannel]⟩) (some ((7 : Nat) : Int)) true =
        .ok [dumpsChan (build_data sixItemChannel ((findall sixItemChannel "item").take 7))]
    ∧ ((findall sixItemChannel "item").length ≤ 7 →
        ∀ json : Bool, rssParser (.ok ⟨"rss", none, [sixItemChannel]⟩) (some ((7 : Nat) : Int)) json =
          rssParser (.ok ⟨"rss", none, [sixItemChannel]⟩) none json) :=
  limit_truncation ⟨"rss", none, [sixItemChannel]⟩ sixItemChannel 7 (by rfl)

/-- Computes `textFieldVal` when the child exists with non-empty text. -/
theorem textFieldVal_eq_some (ch : Element) (f : String) (e : Element) (s : String)
    (hf : find ch f = some e) (hs : e.text = some s) (h0 : ¬ s = "") :
    textFieldVal ch f = some (.s s) := by
  unfold textFieldVal
  simp only [hf, hs]
  rw [if_neg h0]

/-- When the record holds non-empty `title` and `link` strings, any
successful text-mode output starts with the `Feed:` and `Link:` lines. -/
theorem format_take_two (u : String → String) (data : Chan) (t l : String)
    (hT : dgetC data "title" = some (.s t)) (ht0 : ¬ t = "")
    (hL : dgetC data "link" = some (.s l)) (hl0 : ¬ l = "") :
    ∀ out, format_text_outputU u data = .ok out →
      out.take 2 = ["Feed: " ++ u t, "Link: " ++ l] := by
  intro out hout
  unfold format_text_outputU at hout
  cases hcl : channel_linesU u data with
  | error e =>
    rw [hcl] at hout
    exact absurd hout (by simp [Except.bind])
  | ok cl =>
    rw [hcl] at hout
    simp only [Except.bind] at hout
    have hcl2 : cl.take 2 = ["Feed: " ++ u t, "Link: " ++ l] ∧ 2 ≤ cl.length := by
      unfold channel_linesU at hcl
      cases hcatE : (if truthyC (dgetC data "categories") then
          (joinPy ", " (getCatsC data "categories")).map
            (fun j => ["Categories: " ++ j])
        else .ok []) with
      | error e => rw [hcatE] at hcl; exact absurd hcl (by simp [Except.map])
      | ok cls =>
        rw [hcatE] at hcl
        simp only [Except.map, Except.ok.injEq] at hcl
        have htr : truthyC (dgetC data "title") = true := by
          rw [hT]; simp [truthyC, ht0]
        have hlr : truthyC (dgetC data "link") = true := by
          rw [hL]; simp [truthyC, hl0]
        have hts : getStrC data "title" = t := by unfold getStrC; rw [hT]
        have hls : getStrC data "link" = l := by unfold getStrC; rw [hL]
        rw [← hcl]
        simp [htr, hlr, hts, hls, List.take]
    cases hitems : dgetC data "items" with
    | none => rw [hitems] at hout; exact absurd hout (by simp [Except.bind])
    | some v =>
      rw [hitems] at hout
      have hshape : ∃ rest, out = cl ++ rest := by
        cases v with
        | s sv =>
          refine ⟨[], ?_⟩
          simp only [Except.bind, List.mapM_nil, pure, Except.pure, Except.map,
            Except.ok.injEq, List.flatten_nil, List.append_nil] at hout
          simpa using hout.symm
        | cats cv =>
          refine ⟨[], ?_⟩
          simp only [Except.bind, List.mapM_nil, pure, Except.pure, Except.map,
            Except.ok.injEq, List.flatten_nil, List.append_nil] at hout
          simpa using hout.symm
        | items xs =>
          simp only [Except.bind] at hout
          cases hmm : (xs.mapM (format_itemU u)) with
          | error e => rw [hmm] at hout; exact absurd hout (by simp [Except.map])
          | ok blocks =>
            rw [hmm] at hout
            simp only [Except.map, Except.ok.injEq] at hout
            exact ⟨blocks.flatten, hout.symm⟩
      obtain ⟨rest, hrest⟩ := hshape
      rw [hrest, List.take_append_of_le_length hcl2.2, hcl2.1]

/-- C7: whenever the channel has `title`, `link` and `description`
children with non-empty text, every successful text-mode run starts with
exactly the `Feed:` line (title unescaped) and the `Link:` line (link
verbatim). -/
theorem required_field_round_trip (root ch et el ed : Element) (t l d : String)
    (limit : Option Int)
    (h : find root "channel" = some ch)
    (ht : find ch "title" = some et) (htt : et.text = some t) (ht0 : ¬ t = "")
    (hl : find ch "link" = some el) (hlt : el.text = some l) (hl0 : ¬ l = "")
    (hd : find ch "description" = some ed) (hdt : ed.text = some d) (hd0 : ¬ d = "") :
    ∀ out, rssParser (.ok root) limit false = .ok out →
      out.take 2 = ["Feed: " ++ unescape t, "Link: " ++ l] := by
  intro out hout
  have hT : dgetC (build_data ch (applyLimit (findall ch "item") limit)) "title"
      = some (.s t) := by
    rw [dgetC_build_data_ne _ _ _ (by decide), dgetC_parse_channel_text_title]
    exact textFieldVal_eq_some ch "title" et t ht htt ht0
  have hL : dgetC (build_data ch (applyLimit (findall ch "item") limit)) "link"
      = some (.s l) := by
    rw [dgetC_build_data_ne _ _ _ (by decide), dgetC_parse_channel_text_link]
    exact textFieldVal_eq_some ch "link" el l hl hlt hl0
  simp only [rssParser, rssParserBody, h, Bool.false_eq_true, if_false] at hout
  cases hfmt : format_text_output (build_data ch (applyLimit (findall ch "item") limit)) with
  | error e =>
    rw [hfmt] at hout
    cases e <;> simp at hout
  | ok v =>
    rw [hfmt] at hout
    simp only [Except.ok.injEq] at hout
    rw [← hout]
    exact format_take_two unescape _ t l hT ht0 hL hl0 v hfmt

/-- Witness for `required_field_round_trip` on the docstring feed, at its
concrete output. -/
theorem required_field_round_trip_witness :
    ["Feed: Some RSS Channel", "Link: https://some.rss.com",
     "Description: Some RSS Channel"].take 2 =
      ["Feed: " ++ unescape "Some RSS Channel",
       "Link: " ++ "https://some.rss.com"] :=
  required_field_round_trip minimalFeed minimalChannel
    ⟨"title", some "Some RSS Channel", []⟩
    ⟨"link", some "https://some.rss.com", []⟩
    ⟨"description", some "Some RSS Channel", []⟩
    "Some RSS Channel" "https://some.rss.com" "Some RSS Channel" none
    (by rfl) (by rfl) (by rfl) (by decide)
    (by rfl) (by rfl) (by decide)
    (by rfl) (by rfl) (by decide)
    ["Feed: Some RSS Channel", "Link: https://some.rss.com",
     "Description: Some RSS Channel"]
    (by rfl)

set_option maxHeartbeats 2000000 in
/-- The scanner `unescapeAux` maps non-empty inputs to non-empty outputs: each
equation produces a cons from a cons. -/
theorem unescapeAux_eq_nil (l : List Char) : unescapeAux l = [] ↔ l = [] := by
  cases l with
  | nil => exact ⟨fun _ => rfl, fun _ => rfl⟩
  | cons c rest =>
    constructor
    · intro h
      exfalso
      rw [unescapeAux.eq_def] at h
      split at h <;> contradiction
    · intro h
      exact absurd h (by simp)

/-- The unescape model returns the empty string only on the empty string. -/
theorem unescape_eq_empty (s : String) : unescape s = "" ↔ s = "" := by
  obtain ⟨l⟩ := s
  unfold unescape
  constructor
  · intro h
    have haux : unescapeAux l = [] := by
      have := congrArg String.data h
      simpa using this
    have hl : l = [] := (unescapeAux_eq_nil l).mp haux
    rw [hl]
  · intro h
    have hl : l = [] := by
      have := congrArg String.data h
      simpa using this
    rw [hl]
    rfl

/-- Transformation of one item-dict value under an unescaping pass
restricted to the `title` and `description` keys. -/
def itemValMapTD (u : String → String) (k : String) : IVal → IVal
  | .s s => if k = "title" ∨ k = "description" then .s (u s) else .s s
  | .cats xs => .cats xs

/-- Apply `u` to exactly the `title` and `description` values of an item
record. -/
def itemMapTD (u : String → String) (it : Item) : Item :=
  it.map (fun kv => (kv.1, itemValMapTD u kv.1 kv.2))

/-- Transformation of one channel-dict value under an unescaping pass
restricted to `title`/`description`, recursing into the item records. -/
def chanValMapTD (u : String → String) (k : String) : CVal → CVal
  | .s s => if k = "title" ∨ k = "description" then .s (u s) else .s s
  | .cats xs => .cats xs
  | .items xs => .items (xs.map (itemMapTD u))

/-- Apply `u` to exactly the `title` and `description` values of a channel
record (channel level and inside each item). -/
def chanMapTD (u : String → String) (d : Chan) : Chan :=
  d.map (fun kv => (kv.1, chanValMapTD u kv.1 kv.2))

/-- Lookup in a key-preserving value map of a dict. -/
theorem pyGet_keyed_map {β γ : Type} (g : String → β → γ) (d : List (String × β))
    (k : String) :
    pyGet (d.map (fun kv => (kv.1, g kv.1 kv.2))) k = (pyGet d k).map (g k) := by
  induction d with
  | nil => rfl
  | cons hd tl ih =>
    by_cases hk : hd.1 = k
    · unfold pyGet
      rw [List.map_cons, List.find?_cons_of_pos _ (by simp [hk]),
          List.find?_cons_of_pos _ (by simp [hk])]
      simp [hk]
    · unfold pyGet
      rw [List.map_cons, List.find?_cons_of_neg _ (by simp [hk]),
          List.find?_cons_of_neg _ (by simp [hk])]
      exact ih

/-- Lookup in a mapped channel record. -/
theorem dgetC_chanMapTD (u : String → String) (d : Chan) (k : String) :
    dgetC (chanMapTD u d) k = (dgetC d k).map (chanValMapTD u k) :=
  pyGet_keyed_map (chanValMapTD u) d k

/-- Lookup in a mapped item record. -/
theorem dgetI_itemMapTD (u : String → String) (it : Item) (k : String) :
    dgetI (itemMapTD u it) k = (dgetI it k).map (itemValMapTD u k) :=
  pyGet_keyed_map (itemValMapTD u) it k

/-- A truthiness-preserving `u` leaves item-value truthiness unchanged. -/
theorem truthyI_itemMapTD (u : String → String) (hu : ∀ s, u s = "" ↔ s = "")
    (it : Item) (k : String) :
    truthyI (dgetI (itemMapTD u it) k) = truthyI (dgetI it k) := by
  rw [dgetI_itemMapTD]
  cases hv : dgetI it k with
  | none => rfl
  | some v =>
    cases v with
    | s sv =>
      by_cases hk : k = "title" ∨ k = "description"
      · by_cases hs : sv = ""
        · simp [itemValMapTD, hk, hs, truthyI, (hu "").mpr rfl]
        · have hus : ¬ u sv = "" := fun hc => hs ((hu sv).mp hc)
          simp [itemValMapTD, hk, truthyI, hs, hus]
      · simp [itemValMapTD, hk]
    | cats cv => rfl

/-- The pass applies `u` to the stored string at `title`/`description`. -/
theorem getStrI_itemMapTD_td (u : String → String) (hu0 : u "" = "")
    (it : Item) (k : String) (hk : k = "title" ∨ k = "description") :
    getStrI (itemMapTD u it) k = u (getStrI it k) := by
  unfold getStrI
  rw [dgetI_itemMapTD]
  cases hv : dgetI it k with
  | none => simp [hu0]
  | some v =>
    cases v with
    | s sv => simp [itemValMapTD, if_pos hk]
    | cats cv => simp [itemValMapTD, hu0]

/-- Other keys keep their stored string. -/
theorem getStrI_itemMapTD_other (u : String → String) (it : Item) (k : String)
    (hk : ¬ (k = "title" ∨ k = "description")) :
    getStrI (itemMapTD u it) k = getStrI it k := by
  unfold getStrI
  rw [dgetI_itemMapTD]
  cases hv : dgetI it k with
  | none => rfl
  | some v =>
    cases v with
    | s sv => simp [itemValMapTD, if_neg hk]
    | cats cv => simp [itemValMapTD]

/-- Categories lists are untouched by the unescaping pass. -/
theorem getCatsI_itemMapTD (u : String → String) (it : Item) (k : String) :
    getCatsI (itemMapTD u it) k = getCatsI it k := by
  unfold getCatsI
  rw [dgetI_itemMapTD]
  cases hv : dgetI it k with
  | none => rfl
  | some v =>
    cases v with
    | s sv =>
      by_cases hk : k = "title" ∨ k = "description"
      · simp [itemValMapTD, if_pos hk]
      · simp [itemValMapTD, if_neg hk]
    | cats cv => simp [itemValMapTD]

/-- Formatting an item with `u` is formatting its unescaped record with
the identity. -/
theorem format_itemU_mapTD (u : String → String) (hu : ∀ s, u s = "" ↔ s = "")
    (it : Item) :
    format_itemU u it = format_itemU id (itemMapTD u it) := by
  have hu0 : u "" = "" := (hu "").mpr rfl
  unfold format_itemU
  rw [truthyI_itemMapTD u hu it "title", truthyI_itemMapTD u hu it "author",
      truthyI_itemMapTD u hu it "pubDate", truthyI_itemMapTD u hu it "link",
      truthyI_itemMapTD u hu it "categories", truthyI_itemMapTD u hu it "description",
      getStrI_itemMapTD_td u hu0 it "title" (Or.inl rfl),
      getStrI_itemMapTD_td u hu0 it "description" (Or.inr rfl),
      getStrI_itemMapTD_other u it "author" (by simp),
      getStrI_itemMapTD_other u it "pubDate" (by simp),
      getStrI_itemMapTD_other u it "link" (by simp),
      getCatsI_itemMapTD u it "categories"]
  rfl

/-- A truthiness-preserving `u` leaves channel-value truthiness unchanged. -/
theorem truthyC_chanMapTD (u : String → String) (hu : ∀ s, u s = "" ↔ s = "")
    (d : Chan) (k : String) :
    truthyC (dgetC (chanMapTD u d) k) = truthyC (dgetC d k) := by
  rw [dgetC_chanMapTD]
  cases hv : dgetC d k with
  | none => rfl
  | some v =>
    cases v with
    | s sv =>
      by_cases hk : k = "title" ∨ k = "description"
      · by_cases hs : sv = ""
        · simp [chanValMapTD, hk, hs, truthyC, (hu "").mpr rfl]
        · have hus : ¬ u sv = "" := fun hc => hs ((hu sv).mp hc)
          simp [chanValMapTD, hk, truthyC, hs, hus]
      · simp [chanValMapTD, hk]
    | cats cv => rfl
    | items xs => cases xs <;> simp [chanValMapTD, truthyC]

/-- The pass applies `u` to the channel `title`/`description` strings. -/
theorem getStrC_chanMapTD_td (u : String → String) (hu0 : u "" = "")
    (d : Chan) (k : String) (hk : k = "title" ∨ k = "description") :
    getStrC (chanMapTD u d) k = u (getStrC d k) := by
  unfold getStrC
  rw [dgetC_chanMapTD]
  cases hv : dgetC d k with
  | none => simp [hu0]
  | some v =>
    cases v with
    | s sv => simp [chanValMapTD, if_pos hk]
    | cats cv => simp [chanValMapTD, hu0]
    | items xs => simp [chanValMapTD, hu0]

/-- Other channel keys keep their stored string. -/
theorem getStrC_chanMapTD_other (u : String → String) (d : Chan) (k : String)
    (hk : ¬ (k = "title" ∨ k = "description")) :
    getStrC (chanMapTD u d) k = getStrC d k := by
  unfold getStrC
  rw [dgetC_chanMapTD]
  cases hv : dgetC d k with
  | none => rfl
  | some v =>
    cases v with
    | s sv => simp [chanValMapTD, if_neg hk]
    | cats cv => simp [chanValMapTD]
    | items xs => simp [chanValMapTD]

/-- Channel categories lists are untouched by the unescaping pass. -/
theorem getCatsC_chanMapTD (u : String → String) (d : Chan) (k : String) :
    getCatsC (chanMapTD u d) k = getCatsC d k := by
  unfold getCatsC
  rw [dgetC_chanMapTD]
  cases hv : dgetC d k with
  | none => rfl
  | some v =>
    cases v with
    | s sv =>
      by_cases hk : k = "title" ∨ k = "description"
      · simp [chanValMapTD, if_pos hk]
      · simp [chanValMapTD, if_neg hk]
    | cats cv => simp [chanValMapTD]
    | items xs => simp [chanValMapTD]

/-- The channel block with `u` is the channel block of the unescaped
record with the identity. -/
theorem channel_linesU_mapTD (u : String → String) (hu : ∀ s, u s = "" ↔ s = "")
    (d : Chan) :
    channel_linesU u d = channel_linesU id (chanMapTD u d) := by
  have hu0 : u "" = "" := (hu "").mpr rfl
  unfold channel_linesU
  rw [truthyC_chanMapTD u hu d "title", truthyC_chanMapTD u hu d "link",
      truthyC_chanMapTD u hu d "lastBuildDate", truthyC_chanMapTD u hu d "pubDate",
      truthyC_chanMapTD u hu d "language", truthyC_chanMapTD u hu d "categories",
      truthyC_chanMapTD u hu d "managingEditor", truthyC_chanMapTD u hu d "description",
      truthyC_chanMapTD u hu d "items",
      getStrC_chanMapTD_td u hu0 d "title" (Or.inl rfl),
      getStrC_chanMapTD_td u hu0 d "description" (Or.inr rfl),
      getStrC_chanMapTD_other u d "link" (by simp),
      getStrC_chanMapTD_other u d "lastBuildDate" (by simp),
      getStrC_chanMapTD_other u d "pubDate" (by simp),
      getStrC_chanMapTD_other u d "language" (by simp),
      getStrC_chanMapTD_other u d "managingEditor" (by simp),
      getCatsC_chanMapTD u d "categories"]
  rfl

/-- A `mapM` of the item formatter commutes with the unescaping pass. -/
theorem mapM_format_itemU_mapTD (u : String → String)
    (hu : ∀ s, u s = "" ↔ s = "") (xs : List Item) :
    xs.mapM (format_itemU u) = (xs.map (itemMapTD u)).mapM (format_itemU id) := by
  induction xs with
  | nil => rfl
  | cons x rest ih =>
    rw [List.map_cons, List.mapM_cons, List.mapM_cons,
      format_itemU_mapTD u hu x, ih]

/-- Formatting with `u` is formatting the `u`-unescaped record with the
identity, for any truthiness-preserving `u`. -/
theorem format_text_outputU_mapTD (u : String → String)
    (hu : ∀ s, u s = "" ↔ s = "") (d : Chan) :
    format_text_outputU u d = format_text_outputU id (chanMapTD u d) := by
  unfold format_text_outputU
  rw [channel_linesU_mapTD u hu d, dgetC_chanMapTD]
  cases hv : dgetC d "items" with
  | none => rfl
  | some v =>
    cases v with
    | s sv => rfl
    | cats cv => rfl
    | items xs =>
      simp only [Option.map_some', chanValMapTD, Except.bind]
      rw [mapM_format_itemU_mapTD u hu xs]

/-- C8: the text formatter unescapes exactly the channel `title`, channel
`description`, item `title` and item `description` values: running the
real formatter equals applying `unescape` to precisely those four values
of the record and then formatting with the identity in their place, so
every other emitted value appears verbatim. -/
theorem unescape_scope (data : Chan) :
    format_text_output data = format_text_outputU id (chanMapTD unescape data) :=
  format_text_outputU_mapTD unescape unescape_eq_empty data

/-- A required field is missing from the channel: no such child, or its
text is `None` or empty. -/
def fieldMissing (ch : Element) (f : String) : Bool :=
  match find ch f with
  | none => true
  | some e => !truthyText e.text

/-- Every `category` child of `e` carries text (possibly empty). -/
def catsHaveText (e : Element) : Bool :=
  (findall e "category").all (fun c => c.text.isSome)

/-- Every `category` element of the channel and of each item has text. -/
def allCatsHaveText (ch : Element) : Bool :=
  catsHaveText ch && (findall ch "item").all catsHaveText

/-- A missing required field leaves no entry in the record. -/
theorem textFieldVal_eq_none (ch : Element) (f : String)
    (hm : fieldMissing ch f = true) : textFieldVal ch f = none := by
  unfold fieldMissing at hm
  unfold textFieldVal
  cases hfind : find ch f with
  | none => rfl
  | some e =>
    rw [hfind] at hm
    obtain ⟨tg, txt, cs⟩ := e
    cases txt with
    | none => rfl
    | some s =>
      simp only [truthyText, Bool.not_not] at hm
      have hs : s = "" := by simpa using hm
      simp [hs]

/-- The categories entry of a parsed item, as a list. -/
theorem getCatsI_parse_item (it : Element) :
    getCatsI (parse_item it false) "categories" =
      (findall it "category").map (fun c => c.text) := by
  unfold getCatsI
  rw [dgetI_parse_item_false_categories]

/-- The categories entry of a parsed channel, as a list. -/
theorem getCatsC_parse_channel (ch : Element) :
    getCatsC (parse_channel ch false) "categories" =
      (if !(findall ch "category").isEmpty then
        (findall ch "category").map (fun c => c.text) else []) := by
  unfold getCatsC
  rw [dgetC_parse_channel_text_categories]

/-- An `Except.map` preserves success. -/
theorem except_map_ok {α β : Type} (e : Except PyErr α) (f : α → β) (a : α)
    (h : e = .ok a) : e.map f = .ok (f a) := by
  rw [h]
  rfl

/-- Formatting a text-mode item record succeeds whenever all its category
elements carry text. -/
theorem format_itemU_parse_ok (u : String → String) (it : Element)
    (hc : catsHaveText it = true) :
    ∃ ls, format_itemU u (parse_item it false) = .ok ls := by
  have hcatE : ∃ a, (if truthyI (dgetI (parse_item it false) "categories") then
      (joinPy ", " (getCatsI (parse_item it false) "categories")).map
        (fun j => ["Categories: " ++ j])
    else .ok []) = Except.ok a := by
    by_cases hg : truthyI (dgetI (parse_item it false) "categories") = true
    · have hsome : ∀ x ∈ (findall it "category").map (fun c => c.text), x.isSome := by
        intro x hx
        obtain ⟨c, hcm, hcx⟩ := List.mem_map.mp hx
        rw [← hcx]
        exact List.all_eq_true.mp hc c hcm
      obtain ⟨j, hj⟩ := joinPy_ok_of_isSome ", "
        ((findall it "category").map (fun c => c.text)) hsome
      refine ⟨["Categories: " ++ j], ?_⟩
      rw [if_pos hg, getCatsI_parse_item, hj]
      rfl
    · exact ⟨[], by rw [if_neg hg]⟩
  obtain ⟨a, ha⟩ := hcatE
  exact ⟨_, except_map_ok _ _ a ha⟩

/-- Characters diverge at some position inside both lists. -/
def diverge : List Char → List Char → Bool
  | a :: as, b :: bs => if a = b then diverge as bs else true
  | _, _ => false

/-- Lists that diverge stay different under any suffixes. -/
theorem append_ne_of_diverge (l1 l2 : List Char) (h : diverge l1 l2 = true) :
    ∀ x y : List Char, l1 ++ x ≠ l2 ++ y := by
  induction l1 generalizing l2 with
  | nil => cases l2 <;> simp [diverge] at h
  | cons a as ih =>
    cases l2 with
    | nil => simp [diverge] at h
    | cons b bs =>
      intro x y hc
      simp only [List.cons_append, List.cons.injEq] at hc
      by_cases hab : a = b
      · simp only [diverge, if_pos hab] at h
        exact ih bs h x y hc.2
      · exact hab hc.1

/-- Strings with diverging prefixes differ whatever the suffixes. -/
theorem str_append_ne (p q : String) (h : diverge p.data q.data = true)
    (x y : String) : p ++ x ≠ q ++ y := by
  intro hc
  have hd := congrArg String.data hc
  rw [String.data_append, String.data_append] at hd
  exact append_ne_of_diverge p.data q.data h x.data y.data hd

/-- A non-empty string followed by anything is not the empty string. -/
theorem str_append_ne_empty (p x : String) (h : p.data ≠ []) : p ++ x ≠ "" := by
  intro hc
  have hd := congrArg String.data hc
  rw [String.data_append] at hd
  cases hp : p.data with
  | nil => exact h hp
  | cons c cs => rw [hp] at hd; exact List.noConfusion hd

/-- Membership in a guarded singleton forces the value. -/
theorem mem_ite_singleton {α : Type} (a x : α) (c : Prop) [Decidable c]
    (h : a ∈ (if c then [x] else [])) : a = x := by
  split at h
  · simpa using h
  · simp at h

/-- Membership in a guarded singleton forces the guard and the value. -/
theorem mem_ite_singleton_pos {α : Type} (a x : α) (c : Prop) [Decidable c]
    (h : a ∈ (if c then [x] else [])) : c ∧ a = x := by
  split at h
  · rename_i hc
    exact ⟨hc, by simpa using h⟩
  · simp at h

/-- Every line of the channel block is one of the eight fixed-prefix
header lines (each under its guard) or the blank separator. -/
theorem channel_linesU_mem (u : String → String) (data : Chan) (ls : List String)
    (hok : channel_linesU u data = .ok ls) (l : String) (hl : l ∈ ls) :
    (truthyC (dgetC data "title") = true ∧ l = "Feed: " ++ u (getStrC data "title"))
    ∨ (truthyC (dgetC data "link") = true ∧ l = "Link: " ++ getStrC data "link")
    ∨ (l = "Last Build Date: " ++ getStrC data "lastBuildDate")
    ∨ (l = "Publish Date: " ++ getStrC data "pubDate")
    ∨ (l = "Language: " ++ getStrC data "language")
    ∨ (∃ j, l = "Categories: " ++ j)
    ∨ (l = "Editor: " ++ getStrC data "managingEditor")
    ∨ (truthyC (dgetC data "description") = true
        ∧ l = "Description: " ++ u (getStrC data "description"))
    ∨ (l = "") := by
  unfold channel_linesU at hok
  cases hcatE : (if truthyC (dgetC data "categories") then
      (joinPy ", " (getCatsC data "categories")).map (fun j => ["Categories: " ++ j])
    else .ok []) with
  | error e =>
    rw [hcatE] at hok
    exact absurd hok (by simp [Except.map])
  | ok cls =>
    rw [hcatE] at hok
    simp only [Except.map, Except.ok.injEq] at hok
    rw [← hok] at hl
    have hcls : ∀ x ∈ cls, ∃ j, x = "Categories: " ++ j := by
      intro x hx
      by_cases hg : truthyC (dgetC data "categories") = true
      · rw [if_pos hg] at hcatE
        cases hj : joinPy ", " (getCatsC data "categories") with
        | error e => rw [hj] at hcatE; exact absurd hcatE (by simp [Except.map])
        | ok j =>
          rw [hj] at hcatE
          simp only [Except.map, Except.ok.injEq] at hcatE
          rw [← hcatE] at hx
          exact ⟨j, by simpa using hx⟩
      · rw [if_neg hg] at hcatE
        simp only [Except.ok.injEq] at hcatE
        rw [← hcatE] at hx
        simp at hx
    simp only [List.append_assoc, List.mem_append] at hl
    rcases hl with h1 | h2 | h3 | h4 | h5 | hcl | h6 | h7 | h8
    · obtain ⟨hc, hx⟩ := mem_ite_singleton_pos l _ _ h1
      exact Or.inl ⟨hc, hx⟩
    · obtain ⟨hc, hx⟩ := mem_ite_singleton_pos l _ _ h2
      exact Or.inr (Or.inl ⟨hc, hx⟩)
    · obtain ⟨hc, hx⟩ := mem_ite_singleton_pos l _ _ h3
      exact Or.inr (Or.inr (Or.inl hx))
    · obtain ⟨hc, hx⟩ := mem_ite_singleton_pos l _ _ h4
      exact Or.inr (Or.inr (Or.inr (Or.inl hx)))
    · obtain ⟨hc, hx⟩ := mem_ite_singleton_pos l _ _ h5
      exact Or.inr (Or.inr (Or.inr (Or.inr (Or.inl hx))))
    · exact Or.inr (Or.inr (Or.inr (Or.inr (Or.inr (Or.inl (hcls l hcl))))))
    · obtain ⟨hc, hx⟩ := mem_ite_singleton_pos l _ _ h6
      exact Or.inr (Or.inr (Or.inr (Or.inr (Or.inr (Or.inr (Or.inl hx))))))
    · obtain ⟨hc, hx⟩ := mem_ite_singleton_pos l _ _ h7
      exact Or.inr (Or.inr (Or.inr (Or.inr (Or.inr (Or.inr (Or.inr (Or.inl ⟨hc, hx⟩)))))))
    · obtain ⟨hc, hx⟩ := mem_ite_singleton_pos l _ _ h8
      exact Or.inr (Or.inr (Or.inr (Or.inr (Or.inr (Or.inr (Or.inr (Or.inr hx)))))))

/-- The channel block of a parsed record formats successfully when every
channel-level `category` element carries text. -/
theorem channel_linesU_parse_ok (u : String → String) (ch : Element)
    (its : List Element) (hcc : catsHaveText ch = true) :
    ∃ ls, channel_linesU u (build_data ch its) = .ok ls := by
  have hcatE : ∃ a, (if truthyC (dgetC (build_data ch its) "categories") then
      (joinPy ", " (getCatsC (build_data ch its) "categories")).map
        (fun j => ["Categories: " ++ j])
    else .ok []) = Except.ok a := by
    by_cases hg : truthyC (dgetC (build_data ch its) "categories") = true
    · have hget : getCatsC (build_data ch its) "categories" =
          (if !(findall ch "category").isEmpty then
            (findall ch "category").map (fun c => c.text) else []) := by
        unfold getCatsC
        rw [dgetC_build_data_ne _ _ _ (by decide),
            dgetC_parse_channel_text_categories]
      have hsome : ∀ x ∈ (if !(findall ch "category").isEmpty then
          (findall ch "category").map (fun c => c.text) else []), x.isSome := by
        intro x hx
        split at hx
        · obtain ⟨c, hcm, hcx⟩ := List.mem_map.mp hx
          rw [← hcx]
          exact List.all_eq_true.mp hcc c hcm
        · simp at hx
      obtain ⟨j, hj⟩ := joinPy_ok_of_isSome ", " _ hsome
      refine ⟨["Categories: " ++ j], ?_⟩
      rw [if_pos hg, hget, hj]
      rfl
    · exact ⟨[], by rw [if_neg hg]⟩
  obtain ⟨a, ha⟩ := hcatE
  exact ⟨_, except_map_ok _ _ a ha⟩

/-- The whole text formatter succeeds on a parsed record when every
`category` element of the channel and of the parsed items carries text. -/
theorem format_text_output_parse_ok (ch : Element) (its : List Element)
    (hcc : catsHaveText ch = true)
    (hic : ∀ it ∈ its, catsHaveText it = true) :
    ∃ out, format_text_output (build_data ch its) = .ok out := by
  obtain ⟨ls, hls⟩ := channel_linesU_parse_ok unescape ch its hcc
  have hitems := dgetC_build_data_items ch its
  obtain ⟨blocks, hblocks⟩ :=
    mapM_ok_of_ok (format_itemU unescape) (its.map (fun it => parse_item it false))
      (by
        intro x hx
        obtain ⟨it, hit, hix⟩ := List.mem_map.mp hx
        rw [← hix]
        exact format_itemU_parse_ok unescape it (hic it hit))
  refine ⟨ls ++ blocks.flatten, ?_⟩
  unfold format_text_output format_text_outputU
  rw [hls, hitems]
  simp only [Except.bind]
  rw [hblocks]
  rfl

/-- C10 (amended with the category proviso that C9 forces): a feed whose
channel lacks any of the required `title`, `link`, `description` fields
still parses and formats without error — provided every `category`
element carries text, the one unrelated failure mode — and the channel
block simply omits the `Feed:`, `Link:` or `Description:` line of each
missing field. -/
theorem missing_required_fields (root ch : Element)
    (h : find root "channel" = some ch)
    (hcats : allCatsHaveText ch = true) :
    ∃ ls out,
      channel_linesU unescape
          (build_data ch (applyLimit (findall ch "item") none)) = .ok ls
      ∧ rssParser (.ok root) none false = .ok out
      ∧ (fieldMissing ch "title" = true → ∀ v, ("Feed: " ++ v) ∉ ls)
      ∧ (fieldMissing ch "link" = true → ∀ v, ("Link: " ++ v) ∉ ls)
      ∧ (fieldMissing ch "description" = true → ∀ v, ("Description: " ++ v) ∉ ls) := by
  have hcc : catsHaveText ch = true := (Bool.and_eq_true_iff.mp hcats).1
  have hic : ∀ it ∈ findall ch "item", catsHaveText it = true := by
    have := (Bool.and_eq_true_iff.mp hcats).2
    exact fun it hit => List.all_eq_true.mp this it hit
  obtain ⟨ls, hls⟩ :=
    channel_linesU_parse_ok unescape ch (applyLimit (findall ch "item") none) hcc
  obtain ⟨out, hout⟩ :=
    format_text_output_parse_ok ch (applyLimit (findall ch "item") none) hcc
      (fun it hit => hic it hit)
  refine ⟨ls, out, hls, ?_, ?_, ?_, ?_⟩
  · simp only [rssParser, rssParserBody, h, Bool.false_eq_true, if_false]
    rw [hout]
  · intro hm v hvmem
    have hT : truthyC (dgetC (build_data ch (applyLimit (findall ch "item") none))
        "title") = false := by
      rw [dgetC_build_data_ne _ _ _ (by decide), dgetC_parse_channel_text_title,
          textFieldVal_eq_none ch "title" hm]
      rfl
    rcases channel_linesU_mem unescape _ ls hls _ hvmem with
      ⟨hc, _⟩ | ⟨_, hx⟩ | hx | hx | hx | ⟨j, hx⟩ | hx | ⟨_, hx⟩ | hx
    · rw [hT] at hc; exact Bool.noConfusion hc
    · exact str_append_ne "Feed: " "Link: " (by decide) _ _ hx
    · exact str_append_ne "Feed: " "Last Build Date: " (by decide) _ _ hx
    · exact str_append_ne "Feed: " "Publish Date: " (by decide) _ _ hx
    · exact str_append_ne "Feed: " "Language: " (by decide) _ _ hx
    · exact str_append_ne "Feed: " "Categories: " (by decide) _ _ hx
    · exact str_append_ne "Feed: " "Editor: " (by decide) _ _ hx
    · exact str_append_ne "Feed: " "Description: " (by decide) _ _ hx
    · exact str_append_ne_empty "Feed: " v (by decide) hx
  · intro hm v hvmem
    have hL : truthyC (dgetC (build_data ch (applyLimit (findall ch "item") none))
        "link") = false := by
      rw [dgetC_build_data_ne _ _ _ (by decide), dgetC_parse_channel_text_link,
          textFieldVal_eq_none ch "link" hm]
      rfl
    rcases channel_linesU_mem unescape _ ls hls _ hvmem with
      ⟨_, hx⟩ | ⟨hc, _⟩ | hx | hx | hx | ⟨j, hx⟩ | hx | ⟨_, hx⟩ | hx
    · exact str_append_ne "Link: " "Feed: " (by decide) _ _ hx
    · rw [hL] at hc; exact Bool.noConfusion hc
    · exact str_append_ne "Link: " "Last Build Date: " (by decide) _ _ hx
    · exact str_append_ne "Link: " "Publish Date: " (by decide) _ _ hx
    · exact str_append_ne "Link: " "Language: " (by decide) _ _ hx
    · exact str_append_ne "Link: " "Categories: " (by decide) _ _ hx
    · exact str_append_ne "Link: " "Editor: " (by decide) _ _ hx
    · exact str_append_ne "Link: " "Description: " (by decide) _ _ hx
    · exact str_append_ne_empty "Link: " v (by decide) hx
  · intro hm v hvmem
    have hD : truthyC (dgetC (build_data ch (applyLimit (findall ch "item") none))
        "description") = false := by
      rw [dgetC_build_data_ne _ _ _ (by decide), dgetC_parse_channel_text_description,
          textFieldVal_eq_none ch "description" hm]
      rfl
    rcases channel_linesU_mem unescape _ ls hls _ hvmem with
      ⟨_, hx⟩ | ⟨_, hx⟩ | hx | hx | hx | ⟨j, hx⟩ | hx | ⟨hc, _⟩ | hx
    · exact str_append_ne "Description: " "Feed: " (by decide) _ _ hx
    · exact str_append_ne "Description: " "Link: " (by decide) _ _ hx
    · exact str_append_ne "Description: " "Last Build Date: " (by decide) _ _ hx
    · exact str_append_ne "Description: " "Publish Date: " (by decide) _ _ hx
    · exact str_append_ne "Description: " "Language: " (by decide) _ _ hx
    · exact str_append_ne "Description: " "Categories: " (by decide) _ _ hx
    · exact str_append_ne "Description: " "Editor: " (by decide) _ _ hx
    · rw [hD] at hc; exact Bool.noConfusion hc
    · exact str_append_ne_empty "Description: " v (by decide) hx

/-- The ET parse of
`<rss><channel><language>en</language><item><title>I</title><category/></item></channel></rss>`:
required channel fields all missing, and one item with an empty category. -/
def bareBrokenFeed : Element :=
  ⟨"rss", none,
    [⟨"channel", none,
      [⟨"language", some "en", []⟩,
       ⟨"item", none,
         [⟨"title", some "I", []⟩,
          ⟨"category", none, []⟩]⟩]⟩]⟩

/-- The channel element of `bareBrokenFeed`. -/
def bareBrokenChannel : Element :=
  ⟨"channel", none,
    [⟨"language", some "en", []⟩,
     ⟨"item", none,
       [⟨"title", some "I", []⟩,
        ⟨"category", none, []⟩]⟩]⟩

/-- C10, counterexample: a well-formed document whose channel lacks all
required fields does not always return successfully — an empty `category`
element elsewhere in the feed still makes the run raise
`UnhandledException`, so the unqualified claim is false. -/
theorem missing_required_fields_counterexample :
    fieldMissing bareBrokenChannel "title" = true
    ∧ find bareBrokenFeed "channel" = some bareBrokenChannel
    ∧ rssParser (.ok bareBrokenFeed) none false =
        .error (.unhandledException
          "Unexpected error: sequence item 0: expected str instance, NoneType found") := by
  refine ⟨?_, ?_, ?_⟩ <;> rfl

/-- The ET parse of
`<rss><channel><language>en</language><item><title>I</title><category>c1</category></item></channel></rss>`:
required fields missing, all categories carrying text. -/
def bareChannel : Element :=
  ⟨"channel", none,
    [⟨"language", some "en", []⟩,
     ⟨"item", none,
       [⟨"title", some "I", []⟩,
        ⟨"category", some "c1", []⟩]⟩]⟩

/-- Witness for `missing_required_fields` on `bareChannel` under an `rss`
root. -/
theorem missing_required_fields_witness :
    ∃ ls out,
      channel_linesU unescape
          (build_data bareChannel
            (applyLimit (findall bareChannel "item") none)) = .ok ls
      ∧ rssParser (.ok ⟨"rss", none, [bareChannel]⟩) none false = .ok out
      ∧ (fieldMissing bareChannel "title" = true → ∀ v, ("Feed: " ++ v) ∉ ls)
      ∧ (fieldMissing bareChannel "link" = true → ∀ v, ("Link: " ++ v) ∉ ls)
      ∧ (fieldMissing bareChannel "description" = true →
          ∀ v, ("Description: " ++ v) ∉ ls) :=
  missing_required_fields ⟨"rss", none, [bareChannel]⟩ bareChannel
    (by rfl) (by decide)
